import Mathlib

/-!
Verification of the miner-reports aggregation engine.

The repository implements one engine contract three times:
* Strategy A (`src/main.rs`): a single `data_actor` owning a
  `HashMap<String, VecDeque<Report>>`, multiplexing ingestion and a 1-second
  timer via `tokio::select!`.
* Strategy B (`src/bin/actor_per_pool.rs`): an actor per pool behind an
  `RwLock<HashMap<String, mpsc::Sender<PoolActorCommand>>>` registry, with a
  periodic `stats_aggregator_actor` coordinator.
* Strategy C (`src/bin/rayon.rs`): a lock-free `SegQueue<Report>` drained once
  per second by a `stats_aggregator_actor` that groups, merges, prunes and
  aggregates with rayon.

The embedding below models `f64` by `ℚ` (exact accumulation; the spec only
demands floating-point tolerance), `u64` timestamps by `Nat` (so Rust's
`saturating_sub` is plain `Nat` subtraction), `VecDeque<Report>` by
`List Report` (push_back = append at the tail), `HashMap<String, _>` by an
association list, and `BTreeMap<String, PoolStats>` by a key-sorted
association list built by ordered insertion.
-/

/-- `Report` from all three binaries: one telemetry reading. -/
structure Report where
  worker_id : String
  pool : String
  hashrate : ℚ
  temperature : ℚ
  timestamp : Nat
  deriving DecidableEq, Repr

/-- `PoolStats` from all three binaries: the per-pool aggregate. -/
structure PoolStats where
  workers : Nat
  avg_hashrate : ℚ
  avg_temp : ℚ
  deriving DecidableEq, Repr

/-- `PoolStats::default()`: zero workers, zero averages. -/
def PoolStats.default : PoolStats := ⟨0, 0, 0⟩

/-- `AllStats.pools`, a `BTreeMap<String, PoolStats>`: modelled as an
association list whose keys are kept sorted by `buildAllStats`. -/
abbrev AllStats := List (String × PoolStats)

/-- The engine's per-key state, `HashMap<String, VecDeque<Report>>`:
an association list from pool name to that pool's retained reports. -/
abbrev StoreMap := List (String × List Report)

/-- Strategy A's prune (`src/main.rs` lines 108-114): pop reports off the
front of the deque while the front's timestamp is below the threshold, and
stop at the first report that is fresh enough. -/
def pruneFront (threshold : Nat) : List Report → List Report
  | [] => []
  | r :: rest => if r.timestamp < threshold then pruneFront threshold rest else r :: rest

/-- Strategies B and C's prune (`reports.retain(|r| r.timestamp >= expiration_ts)`
in `actor_per_pool.rs` line 121 and `rayon.rs` line 138): keep exactly the
reports whose timestamp is at or above the threshold. -/
def pruneRetain (threshold : Nat) (rs : List Report) : List Report :=
  rs.filter (fun r => threshold ≤ r.timestamp)

/-- The aggregation fold shared verbatim by all three binaries: one pass
accumulating (total_hashrate, total_temp, unique_workers), then either the
averages over the deque length or `PoolStats::default()` when the deque is
empty. -/
def aggregate (rs : List Report) : PoolStats :=
  let acc : ℚ × ℚ × Finset String :=
    rs.foldl (fun a r => (a.1 + r.hashrate, a.2.1 + r.temperature, insert r.worker_id a.2.2))
      (0, 0, ∅)
  if rs.isEmpty then PoolStats.default
  else ⟨acc.2.2.card, acc.1 / (rs.length : ℚ), acc.2.1 / (rs.length : ℚ)⟩

/-- `BTreeMap::insert` on a key-sorted association list: place `(k, v)` at its
ordered position, replacing an existing binding of `k`. -/
def insertSorted (k : String) (v : PoolStats) : AllStats → AllStats
  | [] => [(k, v)]
  | (k2, v2) :: rest =>
    if k < k2 then (k, v) :: (k2, v2) :: rest
    else if k = k2 then (k, v) :: rest
    else (k2, v2) :: insertSorted k v rest

/-- Collecting per-pool results into a `BTreeMap<String, PoolStats>`. -/
def buildAllStats (l : List (String × PoolStats)) : AllStats :=
  l.foldl (fun acc kv => insertSorted kv.1 kv.2 acc) []

/-- `pools_data.entry(report.pool.clone()).or_default().push_back(report)`:
append the report at the tail of its pool's deque, creating the pool's entry
if absent. -/
def addToPool : StoreMap → Report → StoreMap
  | [], r => [(r.pool, [r])]
  | (k, rs) :: rest, r =>
    if k = r.pool then (k, rs ++ [r]) :: rest else (k, rs) :: addToPool rest r

/-- Strategy A's compute pass (`data_actor`, timer branch): for every pool,
prune from the front, aggregate the pruned deque, and collect into a
`BTreeMap`; the mutated (pruned) stores stay in `pools_data`, empty or not. -/
def passA (now exp : Nat) (pd : StoreMap) : StoreMap × AllStats :=
  let threshold := now - exp
  let pruned := pd.map (fun kv => (kv.1, pruneFront threshold kv.2))
  (pruned, buildAllStats (pruned.map (fun kv => (kv.1, aggregate kv.2))))

/-- Strategy B's compute pass as orchestrated by `stats_aggregator_actor`:
every live `pool_actor` receives `CalculateStats`, retains only fresh
reports, replies with the aggregate of what remains, and keeps running;
the coordinator assembles the replies into a `BTreeMap`. -/
def passB (now exp : Nat) (reg : StoreMap) : StoreMap × AllStats :=
  let threshold := now - exp
  let pruned := reg.map (fun kv => (kv.1, pruneRetain threshold kv.2))
  (pruned, buildAllStats (pruned.map (fun kv => (kv.1, aggregate kv.2))))

/-- Step 1-3 of Strategy C's pass: drain the queue and merge the drained
reports into the persistent per-key state, appending at each pool's tail. -/
def mergeNew (drained : List Report) (pd : StoreMap) : StoreMap :=
  drained.foldl addToPool pd

/-- Strategy C's compute pass (`stats_aggregator_actor` in `rayon.rs`):
merge the drained reports (steps 1-3), prune and aggregate every pool into
the published `BTreeMap` (step 4), and only afterwards drop pools whose
deque is now empty from the persistent state (step 5). -/
def rayonPass (drained : List Report) (now exp : Nat) (pd : StoreMap) : StoreMap × AllStats :=
  let threshold := now - exp
  let merged := mergeNew drained pd
  let pruned := merged.map (fun kv => (kv.1, pruneRetain threshold kv.2))
  let snapshot := buildAllStats (pruned.map (fun kv => (kv.1, aggregate kv.2)))
  (pruned.filter (fun kv => !kv.2.isEmpty), snapshot)

/-- State of the `mpsc::channel(1024)` delivery channel of Strategy A:
whether every receiver has been dropped, and the queue of buffered reports. -/
structure Channel where
  closedFlag : Bool
  queued : List Report
  deriving DecidableEq, Repr

/-- `report_tx.send(report).await`: fails exactly when the channel is closed,
otherwise enqueues the report at the tail. -/
def Channel.send (c : Channel) (r : Report) : Except Unit Channel :=
  if c.closedFlag then Except.error () else Except.ok { c with queued := c.queued ++ [r] }

/-- `post_report` of `src/main.rs` (Strategy A; Strategy B's handler reacts to
a failed send identically): HTTP 500 when the send fails because the channel
is closed, HTTP 200 once the report is enqueued. -/
def postReportA (c : Channel) (r : Report) : Nat × Channel :=
  match c.send r with
  | Except.error _ => (500, c)
  | Except.ok c2 => (200, c2)

/-- `post_report` of `src/bin/rayon.rs` (Strategy C): `SegQueue::push` cannot
fail, so the handler always returns HTTP 200 with the report enqueued. -/
def postReportC (q : List Report) (r : Report) : Nat × List Report :=
  (200, q ++ [r])

/-- The ordered effects of Strategy B's `post_report`
(`src/bin/actor_per_pool.rs` lines 73-96): `actor_registry.write().await`
is acquired first; the entry look-up (with lazy spawn) and the
`actor_tx.send(..).await` both happen while the guard borrowing the map is
alive; the guard is dropped only when the handler returns. -/
inductive BEvent where
  | acquireWriteLock
  | lookupOrSpawnWorker
  | mailboxSend
  | releaseWriteLock
  deriving DecidableEq, Repr

/-- The event trace of one execution of Strategy B's `post_report`. -/
def postReportBTrace : List BEvent := [BEvent.acquireWriteLock, BEvent.lookupOrSpawnWorker,
  BEvent.mailboxSend, BEvent.releaseWriteLock]

/-- Position of the first occurrence of an event in a trace. -/
def posOf : List BEvent → BEvent → Nat
  | [], _ => 0
  | x :: xs, e => if x = e then 0 else posOf xs e + 1

/-- Whether the registry lock is held across the mailbox send in a trace:
the send happens after the acquire and before the release. -/
def lockHeldAcrossSend (tr : List BEvent) : Bool :=
  decide (posOf tr BEvent.acquireWriteLock < posOf tr BEvent.mailboxSend ∧
    posOf tr BEvent.mailboxSend < posOf tr BEvent.releaseWriteLock)

/-- The publish step shared by all three compute passes:
`if let Ok(json) = serde_json::to_string(&current_stats) { stats_tx.send(json).ok(); }` —
on serialization failure the watch cell keeps its previous value, on success
it is unconditionally overwritten. -/
def publishStep (ser : Option String) (held : String) : String :=
  match ser with
  | some j => j
  | none => held

/-- Strategy A's full timer branch: compute the pass, then publish through
`publishStep` into the watch cell. -/
def passAWithPublish (serialize : AllStats → Option String) (now exp : Nat)
    (pd : StoreMap) (held : String) : StoreMap × String :=
  let p := passA now exp pd
  (p.1, publishStep (serialize p.2) held)

/-- `PoolActorCommand` of `src/bin/actor_per_pool.rs`. -/
inductive PoolCmd where
  | addReport (r : Report)
  | calcStats
  deriving DecidableEq, Repr

/-- Whether a command is `CalculateStats` (carries a reply channel). -/
def PoolCmd.isCalc : PoolCmd → Bool
  | PoolCmd.addReport _ => false
  | PoolCmd.calcStats => true

/-- One iteration of `pool_actor`'s message loop: `AddReport` appends,
`CalculateStats` prunes with `retain`, replies with the aggregate of what
remains, and keeps the pruned store. -/
def poolActorStep (now exp : Nat) (store : List Report) : PoolCmd → List Report × Option PoolStats
  | PoolCmd.addReport r => (store ++ [r], none)
  | PoolCmd.calcStats =>
    (pruneRetain (now - exp) store, some (aggregate (pruneRetain (now - exp) store)))

/-- The `pool_actor` loop over a mailbox's contents: it consumes every
message (the loop exits only when `recv` returns `None`, i.e. the channel is
closed), returning the final store and the replies sent, in order. -/
def poolActorRun (now exp : Nat) (store : List Report) : List PoolCmd → List Report × List PoolStats
  | [] => (store, [])
  | c :: cs =>
    let s2 := poolActorStep now exp store c
    let rest := poolActorRun now exp s2.1 cs
    (rest.1, s2.2.toList ++ rest.2)

/-- Modelled from the spec: the JSON wire encoding of one `PoolStats`
(`serde_json` is an external collaborator, §6 of the spec fixes the shape
`\x7b"workers": int, "avg_hashrate": number, "avg_temp": number\x7d`);
`render` stands for the number formatting of `f64` values. -/
def serializePoolStats (render : ℚ → String) (ps : PoolStats) : String :=
  "\x7b\"workers\":" ++ toString ps.workers ++ ",\"avg_hashrate\":" ++ render ps.avg_hashrate
    ++ ",\"avg_temp\":" ++ render ps.avg_temp ++ "\x7d"

/-- Modelled from the spec: the JSON wire encoding of `AllStats`, §6 of the
spec — `\x7b"pools": \x7b"<key>": ..., ...\x7d\x7d` with the entries emitted
in the order of the key-sorted map, compact as in the §8 example. -/
def serializeAllStats (render : ℚ → String) (s : AllStats) : String :=
  "\x7b\"pools\":\x7b"
    ++ String.intercalate ","
      (s.map (fun kv => "\"" ++ kv.1 ++ "\":" ++ serializePoolStats render kv.2))
    ++ "\x7d\x7d"

/-- `AllStats::default()`: no pools. -/
def emptyAllStats : AllStats := []

/-- `get_stats` (identical in all three binaries): reply with the current
contents of the watch cell; the handler cannot fail, so the status is
always 200 (the first component). -/
def get_stats (cell : String) : Nat × String := (200, cell)

/-- The initial value of the watch cell, from `main` of every binary:
`watch::channel(serde_json::to_string(&AllStats::default()).unwrap())`. -/
def initialCell (render : ℚ → String) : String := serializeAllStats render emptyAllStats

/-- A single-pool state whose reports arrived out of timestamp order: the
fresh report (timestamp 100) sits in front of the stale one (timestamp 1). -/
def outOfOrderStore : StoreMap := [("p", [⟨"w1", "p", 100, 10, 100⟩, ⟨"w2", "p", 50, 20, 1⟩])]

/-- A single-pool state whose reports arrived in timestamp order. -/
def inOrderStore : StoreMap := [("p", [⟨"w1", "p", 1, 1, 10⟩, ⟨"w2", "p", 1, 1, 20⟩])]

/-- Two fresh reports from distinct workers for one pool. -/
def twoReports : List Report := [⟨"w1", "p", 100, 10, 100⟩, ⟨"w2", "p", 50, 20, 60⟩]

/-- One report used to exercise the ingestion handlers. -/
def oneReport : Report := ⟨"w1", "p", 100, 10, 100⟩

/-- A single-pool state whose only report is stale at pass time 50 with a
10-second window. -/
def staleStore : StoreMap := [("p", [⟨"w", "p", 1, 1, 1⟩])]

/-- A second single-pool state with a stale report, for the repeated-pass
scenario. -/
def staleStoreQ : StoreMap := [("q", [⟨"w", "q", 1, 1, 1⟩])]

/-- The three-component fold of `aggregate` computes the two sums and the
finite set of worker ids of the folded reports. -/
theorem aggregate_foldl (rs : List Report) (h t : ℚ) (w : Finset String) :
    rs.foldl (fun a r => (a.1 + r.hashrate, a.2.1 + r.temperature, insert r.worker_id a.2.2))
        (h, t, w) =
      (h + (rs.map Report.hashrate).sum, t + (rs.map Report.temperature).sum,
        (rs.map Report.worker_id).toFinset ∪ w) := by
  induction rs generalizing h t w with
  | nil => simp
  | cons r rest ih =>
    simp only [List.foldl_cons, List.map_cons, List.sum_cons, List.toFinset_cons, ih]
    simp [Prod.ext_iff, add_assoc, Finset.union_insert, Finset.insert_union]

/-- On a non-empty store, `aggregate` yields the distinct worker count and
the two arithmetic means. -/
theorem aggregate_spec (rs : List Report) (hne : rs ≠ []) :
    aggregate rs = ⟨(rs.map Report.worker_id).toFinset.card,
      (rs.map Report.hashrate).sum / (rs.length : ℚ),
      (rs.map Report.temperature).sum / (rs.length : ℚ)⟩ := by
  rw [aggregate, aggregate_foldl]
  simp [hne]

/-- On an empty store, `aggregate` takes the default branch and divides by
nothing. -/
theorem aggregate_nil : aggregate [] = PoolStats.default := rfl

/-- Every report surviving a `retain`-style prune is fresh. -/
theorem pruneRetain_fresh (t : Nat) (rs : List Report) :
    ∀ r ∈ pruneRetain t rs, t ≤ r.timestamp := by
  intro r hr
  simp only [pruneRetain, List.mem_filter, decide_eq_true_eq] at hr
  exact hr.2

/-- A `retain`-style prune over an all-fresh store keeps every report. -/
theorem pruneRetain_of_fresh (t : Nat) (rs : List Report)
    (h : ∀ r ∈ rs, t ≤ r.timestamp) : pruneRetain t rs = rs :=
  List.filter_eq_self.mpr (by simpa using h)

/-- A `retain`-style prune is idempotent. -/
theorem pruneRetain_idem (t : Nat) (rs : List Report) :
    pruneRetain t (pruneRetain t rs) = pruneRetain t rs :=
  pruneRetain_of_fresh t _ (pruneRetain_fresh t rs)

/-- When a store's timestamps are non-decreasing in arrival order, Strategy
A's front-only prune leaves only fresh reports. -/
theorem pruneFront_fresh_of_sorted (t : Nat) (rs : List Report)
    (h : rs.Pairwise (fun a b => a.timestamp ≤ b.timestamp)) :
    ∀ r ∈ pruneFront t rs, t ≤ r.timestamp := by
  induction rs with
  | nil => simp [pruneFront]
  | cons a rest ih =>
    rw [List.pairwise_cons] at h
    rw [pruneFront]
    by_cases hc : a.timestamp < t
    · simpa [hc] using ih h.2
    · intro r hr
      simp only [if_neg hc, List.mem_cons] at hr
      rcases hr with rfl | hr
      · exact Nat.le_of_not_lt hc
      · exact le_trans (Nat.le_of_not_lt hc) (h.1 r hr)

/-- Strategy A's front-only prune is idempotent. -/
theorem pruneFront_idem (t : Nat) (rs : List Report) :
    pruneFront t (pruneFront t rs) = pruneFront t rs := by
  induction rs with
  | nil => rfl
  | cons a rest ih =>
    rw [pruneFront]
    by_cases hc : a.timestamp < t
    · simpa [hc] using ih
    · simp only [if_neg hc]
      rw [pruneFront, if_neg hc]

/-- Keys present after a `BTreeMap` insert: the inserted key plus the
previous keys. -/
theorem insertSorted_mem_keys (k a : String) (v : PoolStats) (m : AllStats) :
    a ∈ (insertSorted k v m).map Prod.fst ↔ a = k ∨ a ∈ m.map Prod.fst := by
  induction m with
  | nil => simp [insertSorted]
  | cons kv rest ih =>
    obtain ⟨k2, v2⟩ := kv
    by_cases h1 : k < k2
    · simp only [insertSorted, if_pos h1, List.map_cons, List.mem_cons]
    · by_cases h2 : k = k2
      · simp only [insertSorted, if_neg h1, if_pos h2, List.map_cons, List.mem_cons]
        subst h2
        tauto
      · simp only [insertSorted, if_neg h1, if_neg h2, List.map_cons, List.mem_cons, ih]
        tauto

/-- A `BTreeMap` insert keeps the key list strictly sorted. -/
theorem insertSorted_sorted (k : String) (v : PoolStats) (m : AllStats)
    (h : ((m.map Prod.fst)).Sorted (· < ·)) :
    (((insertSorted k v m).map Prod.fst)).Sorted (· < ·) := by
  induction m with
  | nil => simp [insertSorted]
  | cons kv rest ih =>
    obtain ⟨k2, v2⟩ := kv
    simp only [List.map_cons, List.sorted_cons] at h
    by_cases h1 : k < k2
    · simp only [insertSorted, if_pos h1, List.map_cons, List.sorted_cons]
      refine ⟨?_, h.1, h.2⟩
      intro b hb
      rcases List.mem_cons.mp hb with rfl | hb
      · exact h1
      · exact lt_trans h1 (h.1 b hb)
    · by_cases h2 : k = k2
      · simp only [insertSorted, if_neg h1, if_pos h2, List.map_cons, List.sorted_cons]
        subst h2
        exact h
      · have h3 : k2 < k := lt_of_le_of_ne (not_lt.mp h1) (Ne.symm h2)
        simp only [insertSorted, if_neg h1, if_neg h2, List.map_cons, List.sorted_cons]
        refine ⟨?_, ih h.2⟩
        intro b hb
        rcases (insertSorted_mem_keys k b v rest).mp hb with rfl | hb
        · exact h3
        · exact h.1 b hb

/-- Folding `BTreeMap` inserts keeps the key list strictly sorted. -/
theorem foldl_insertSorted_sorted (l : List (String × PoolStats)) (acc : AllStats)
    (hacc : ((acc.map Prod.fst)).Sorted (· < ·)) :
    (((l.foldl (fun acc kv => insertSorted kv.1 kv.2 acc) acc).map Prod.fst)).Sorted (· < ·) := by
  induction l generalizing acc with
  | nil => exact hacc
  | cons kv rest ih => exact ih _ (insertSorted_sorted kv.1 kv.2 acc hacc)

/-- The published `BTreeMap`'s keys are strictly sorted, whatever the
iteration order of the underlying `HashMap`. -/
theorem buildAllStats_sorted (l : List (String × PoolStats)) :
    (((buildAllStats l).map Prod.fst)).Sorted (· < ·) :=
  foldl_insertSorted_sorted l [] (by simp)

/-- Keys of a fold of `BTreeMap` inserts: input keys plus accumulator keys. -/
theorem foldl_insertSorted_mem (l : List (String × PoolStats)) (acc : AllStats) (a : String) :
    (a ∈ (l.foldl (fun acc kv => insertSorted kv.1 kv.2 acc) acc).map Prod.fst) ↔
      a ∈ l.map Prod.fst ∨ a ∈ acc.map Prod.fst := by
  induction l generalizing acc with
  | nil => simp
  | cons kv rest ih =>
    simp only [List.foldl_cons, List.map_cons, List.mem_cons, ih, insertSorted_mem_keys]
    tauto

/-- The published `BTreeMap` holds exactly the keys it was built from. -/
theorem buildAllStats_mem (l : List (String × PoolStats)) (a : String) :
    (a ∈ (buildAllStats l).map Prod.fst) ↔ a ∈ l.map Prod.fst := by
  rw [buildAllStats, foldl_insertSorted_mem]
  simp

/-- Mapping a per-store transformation preserves the key list. -/
theorem map_stores_keys (pd : StoreMap) (f : List Report → List Report) :
    (pd.map (fun kv => (kv.1, f kv.2))).map Prod.fst = pd.map Prod.fst := by
  simp [List.map_map, Function.comp]

/-- Applying an idempotent per-store transformation twice is the same as
once. -/
theorem map_stores_idem (pd : StoreMap) (f : List Report → List Report)
    (hf : ∀ rs, f (f rs) = f rs) :
    ((pd.map (fun kv => (kv.1, f kv.2))).map (fun kv => (kv.1, f kv.2))) =
      pd.map (fun kv => (kv.1, f kv.2)) := by
  rw [List.map_map]
  exact List.map_congr_left (fun kv _ => by simp [Function.comp, hf])

/-- Mapping a per-entry transformation that keeps the key preserves the key
list, whatever the value type. -/
theorem map_snd_keys {α β : Type} (pd : List (String × α)) (f : String × α → β) :
    ((pd.map (fun kv => (kv.1, f kv))).map Prod.fst) = pd.map Prod.fst := by
  simp [List.map_map, Function.comp]

/-- Every entry surviving a Strategy C pass is all-fresh and non-empty. -/
theorem rayonPass_state_fresh (drained : List Report) (now exp : Nat) (pd : StoreMap) :
    ∀ kv ∈ (rayonPass drained now exp pd).1,
      (∀ r ∈ kv.2, now - exp ≤ r.timestamp) ∧ kv.2 ≠ [] := by
  intro kv hkv
  simp only [rayonPass, List.mem_filter, List.mem_map] at hkv
  obtain ⟨⟨kv0, hkv0, rfl⟩, hne⟩ := hkv
  exact ⟨pruneRetain_fresh _ _, by simpa using hne⟩

/-- A Strategy C pass with nothing drained is the identity on a state whose
entries are already all-fresh and non-empty. -/
theorem rayonPass_fixed (now exp : Nat) (s : StoreMap)
    (hfresh : ∀ kv ∈ s, ∀ r ∈ kv.2, now - exp ≤ r.timestamp)
    (hne : ∀ kv ∈ s, kv.2 ≠ []) :
    rayonPass [] now exp s =
      (s, buildAllStats (s.map (fun kv => (kv.1, aggregate kv.2)))) := by
  have hmap : s.map (fun kv => (kv.1, pruneRetain (now - exp) kv.2)) = s := by
    conv_rhs => rw [← List.map_id s]
    refine List.map_congr_left ?_
    intro kv hkv
    simp [pruneRetain_of_fresh _ _ (hfresh kv hkv)]
  have hfil : s.filter (fun kv => !kv.2.isEmpty) = s := by
    refine List.filter_eq_self.mpr ?_
    intro kv hkv
    simpa using hne kv hkv
  simp only [rayonPass, mergeNew, List.foldl_nil, hmap, hfil]

/-- Replies of the `pool_actor` loop over concatenated mailbox contents:
processing continues from the intermediate store, whatever came before. -/
theorem poolActorRun_append (now exp : Nat) (store : List Report) (ms1 ms2 : List PoolCmd) :
    poolActorRun now exp store (ms1 ++ ms2) =
      ((poolActorRun now exp ((poolActorRun now exp store ms1).1) ms2).1,
        (poolActorRun now exp store ms1).2 ++
          (poolActorRun now exp ((poolActorRun now exp store ms1).1) ms2).2) := by
  induction ms1 generalizing store with
  | nil => simp [poolActorRun]
  | cons c cs ih => simp [poolActorRun, ih, List.append_assoc]

/-- The `pool_actor` loop answers every `CalculateStats` message exactly
once, whether or not the store is empty. -/
theorem poolActorRun_reply_count (now exp : Nat) (store : List Report) (ms : List PoolCmd) :
    (poolActorRun now exp store ms).2.length = (ms.filter PoolCmd.isCalc).length := by
  induction ms generalizing store with
  | nil => rfl
  | cons c cs ih =>
    cases c <;> simp [poolActorRun, poolActorStep, PoolCmd.isCalc, ih]

/-- C1 (amended): immediately after any compute pass of Strategies B and C,
every retained Sample satisfies `timestamp >= now - expirationSeconds`, and
the aggregates feeding the published snapshot are computed over pruned,
all-fresh stores only — for every insertion order. Strategy A's front-only
prune guarantees this only when each store's timestamps are non-decreasing
in arrival order; an out-of-order stale Sample behind a fresh one survives. -/
theorem c1_windowing_amended (now exp : Nat) (reg pd pdc : StoreMap) (drained : List Report) :
    (∀ kv ∈ (passB now exp reg).1, ∀ r ∈ kv.2, now - exp ≤ r.timestamp) ∧
    ((passB now exp reg).2 =
      buildAllStats ((passB now exp reg).1.map (fun kv => (kv.1, aggregate kv.2)))) ∧
    (∀ kv ∈ (rayonPass drained now exp pdc).1, ∀ r ∈ kv.2, now - exp ≤ r.timestamp) ∧
    (∀ kv ∈ (mergeNew drained pdc).map (fun kv => (kv.1, pruneRetain (now - exp) kv.2)),
      ∀ r ∈ kv.2, now - exp ≤ r.timestamp) ∧
    ((∀ kv ∈ pd, kv.2.Pairwise (fun a b => a.timestamp ≤ b.timestamp)) →
      ∀ kv ∈ (passA now exp pd).1, ∀ r ∈ kv.2, now - exp ≤ r.timestamp) := by
  refine ⟨?_, rfl, ?_, ?_, ?_⟩
  · intro kv hkv
    simp only [passB, List.mem_map] at hkv
    obtain ⟨kv0, _, rfl⟩ := hkv
    exact pruneRetain_fresh _ _
  · intro kv hkv
    exact (rayonPass_state_fresh drained now exp pdc kv hkv).1
  · intro kv hkv
    simp only [List.mem_map] at hkv
    obtain ⟨kv0, _, rfl⟩ := hkv
    exact pruneRetain_fresh _ _
  · intro hs kv hkv
    simp only [passA, List.mem_map] at hkv
    obtain ⟨kv0, hkv0, rfl⟩ := hkv
    exact pruneFront_fresh_of_sorted _ _ (hs kv0 hkv0)

/-- Witness for `c1_windowing_amended`: with the window threshold at 20, the
in-order store prunes down to its timestamp-20 report, which is fresh. -/
theorem c1_windowing_amended_witness :
    (∀ kv ∈ inOrderStore, kv.2.Pairwise (fun a b => a.timestamp ≤ b.timestamp)) ∧
    21 - 1 ≤ (⟨"w2", "p", 1, 1, 20⟩ : Report).timestamp := by
  refine ⟨by decide, ?_⟩
  exact (c1_windowing_amended 21 1 [] inOrderStore [] []).2.2.2.2 (by decide)
    ("p", [⟨"w2", "p", 1, 1, 20⟩]) (by decide) ⟨"w2", "p", 1, 1, 20⟩ (by decide)

/-- C1 fails as stated on Strategy A: at pass time 50 with a 10-second
window, the stale timestamp-1 report hiding behind the fresh timestamp-100
report survives the front-only prune and is counted in the published
average. -/
theorem c1_counterexample :
    (∃ kv ∈ (passA 50 10 outOfOrderStore).1, ∃ r ∈ kv.2, r.timestamp < 50 - 10) ∧
    (passA 50 10 outOfOrderStore).2 = [("p", ⟨2, 75, 15⟩)] := by
  refine ⟨by decide, ?_⟩
  simp [passA, outOfOrderStore, pruneFront, buildAllStats, insertSorted, aggregate,
    PoolStats.default]
  norm_num

/-- C2: on a key with N retained Samples the shared aggregation fold yields
`workers` = number of distinct worker ids, `avgHashrate` = sum of hashrates
divided by N, `avgTemperature` likewise (exactly, in `ℚ`); on a key with
zero retained Samples it yields the zero-valued default via the empty
branch, so the division is never executed on an empty store. -/
theorem c2_aggregation (rs : List Report) :
    (rs ≠ [] → aggregate rs = ⟨((rs.map Report.worker_id).toFinset).card,
        (rs.map Report.hashrate).sum / (rs.length : ℚ),
        (rs.map Report.temperature).sum / (rs.length : ℚ)⟩) ∧
    aggregate [] = ⟨0, 0, 0⟩ :=
  ⟨aggregate_spec rs, rfl⟩

/-- Witness for `c2_aggregation`: two reports from two distinct workers with
hashrates 100 and 50 and temperatures 10 and 20 average to (2, 75, 15). -/
theorem c2_aggregation_witness :
    twoReports ≠ [] ∧ aggregate twoReports = ⟨2, 75, 15⟩ := by
  refine ⟨by decide, ?_⟩
  rw [(c2_aggregation twoReports).1 (by decide)]
  simp [twoReports]
  norm_num

/-- C3 fails as stated: at pass time 50 with a 10-second window, Strategy
C's pass empties the pool's store and removes it from persistent state, yet
the snapshot published by that same pass still carries the pool, with
zero-valued default stats, because the snapshot is built before the
removal. -/
theorem c3_counterexample :
    ("p", PoolStats.default) ∈ (rayonPass [] 50 10 staleStore).2 ∧
    (rayonPass [] 50 10 staleStore).1 = [] := by
  decide

/-- C3 (amended): each Strategy C pass does remove every key whose store is
empty after pruning from the persistent state, but the AllStats it publishes
is built before that removal, over every key present after the merge — a key
emptied during the pass appears in that pass's snapshot (with default stats)
and only disappears from the snapshots of later passes. -/
theorem c3_empty_keys_amended (drained : List Report) (now exp : Nat) (pd : StoreMap) :
    (∀ kv ∈ (rayonPass drained now exp pd).1, kv.2 ≠ []) ∧
    (∀ k, (k ∈ ((rayonPass drained now exp pd).2.map Prod.fst)) ↔
      k ∈ ((mergeNew drained pd).map Prod.fst)) ∧
    (∀ k, k ∉ ((rayonPass drained now exp pd).1.map Prod.fst) →
      k ∉ ((rayonPass [] now exp ((rayonPass drained now exp pd).1)).2.map Prod.fst)) := by
  have keymem : ∀ (dr : List Report) (s : StoreMap) (k : String),
      (k ∈ ((rayonPass dr now exp s).2.map Prod.fst)) ↔ k ∈ ((mergeNew dr s).map Prod.fst) := by
    intro dr s k
    show (k ∈ (buildAllStats _).map Prod.fst) ↔ _
    rw [buildAllStats_mem, map_snd_keys, map_snd_keys]
  refine ⟨?_, keymem drained pd, ?_⟩
  · intro kv hkv
    exact (rayonPass_state_fresh drained now exp pd kv hkv).2
  · intro k hk
    rw [keymem [] ((rayonPass drained now exp pd).1) k]
    exact hk

/-- Witness for `c3_empty_keys_amended`: the pool emptied at pass time 50 is
gone from the persistent state, hence absent from the next pass's
snapshot. -/
theorem c3_empty_keys_amended_witness :
    ("p" ∉ ((rayonPass [] 50 10 staleStore).1.map Prod.fst)) ∧
    ("p" ∉ ((rayonPass [] 50 10 ((rayonPass [] 50 10 staleStore).1)).2.map Prod.fst)) :=
  ⟨by decide, (c3_empty_keys_amended [] 50 10 staleStore).2.2 "p" (by decide)⟩

/-- C4: the claim is right and the code is wrong — in Strategy B's
`post_report` the registry write lock is acquired before the entry look-up
and is still held while `actor_tx.send(..).await` runs; the guard is only
dropped when the handler returns, so the lock is held across the mailbox
send. -/
theorem c4_lock_held_across_send : lockHeldAcrossSend postReportBTrace = true := by decide

/-- C5: ingestion fails with a 500 exactly when the delivery channel is
closed; otherwise the sample is enqueued and the handler returns 200; in
Strategy C the queue push cannot fail, so the handler always returns 200
with the sample enqueued. -/
theorem c5_ingest_status (c : Channel) (r : Report) (q : List Report) :
    ((postReportA c r).1 = 500 ↔ c.closedFlag = true) ∧
    (c.closedFlag = false → postReportA c r = (200, ⟨false, c.queued ++ [r]⟩)) ∧
    postReportC q r = (200, q ++ [r]) := by
  obtain ⟨cf, cq⟩ := c
  cases cf <;> simp [postReportA, postReportC, Channel.send]

/-- Witness for `c5_ingest_status`: on an open channel the report is
enqueued and the handler answers 200. -/
theorem c5_ingest_status_witness :
    (⟨false, []⟩ : Channel).closedFlag = false ∧
    postReportA ⟨false, []⟩ oneReport = (200, ⟨false, [oneReport]⟩) :=
  ⟨rfl, (c5_ingest_status ⟨false, []⟩ oneReport []).2.1 rfl⟩

/-- C6 fails as stated on Strategy C: running the pass twice at time 50 with
a 10-second window and nothing drained, a pool whose store empties in the
first pass appears (with default stats) in the first snapshot but not in the
second, because the first pass removed it from persistent state. -/
theorem c6_counterexample :
    (rayonPass [] 50 10 ((rayonPass [] 50 10 staleStoreQ).1)).2 ≠
      (rayonPass [] 50 10 staleStoreQ).2 := by
  decide

/-- C6 (amended): with no new Samples and no elapsed time, repeated compute
passes publish identical AllStats in Strategies A and B; in Strategy C the
first repetition can drop keys whose stores became empty during the first
pass, and from the second pass onward repetitions publish identical
AllStats. -/
theorem c6_idempotence_amended (now exp : Nat) (pd reg pdc : StoreMap) :
    (passA now exp ((passA now exp pd).1)).2 = (passA now exp pd).2 ∧
    (passB now exp ((passB now exp reg).1)).2 = (passB now exp reg).2 ∧
    (rayonPass [] now exp ((rayonPass [] now exp ((rayonPass [] now exp pdc).1)).1)).2 =
      (rayonPass [] now exp ((rayonPass [] now exp pdc).1)).2 := by
  refine ⟨?_, ?_, ?_⟩
  · exact congrArg (fun s => buildAllStats (s.map (fun kv => (kv.1, aggregate kv.2))))
      (map_stores_idem pd _ (pruneFront_idem (now - exp)))
  · exact congrArg (fun s => buildAllStats (s.map (fun kv => (kv.1, aggregate kv.2))))
      (map_stores_idem reg _ (pruneRetain_idem (now - exp)))
  · have hprops := rayonPass_state_fresh [] now exp pdc
    have hfix : rayonPass [] now exp ((rayonPass [] now exp pdc).1) =
        (((rayonPass [] now exp pdc).1),
          buildAllStats (((rayonPass [] now exp pdc).1).map (fun kv => (kv.1, aggregate kv.2)))) :=
      rayonPass_fixed now exp _ (fun kv hkv => (hprops kv hkv).1) (fun kv hkv => (hprops kv hkv).2)
    simp only [hfix]

/-- C7: when serializing the freshly built AllStats fails, the publish step
leaves the previously published snapshot in place and surfaces nothing; when
it succeeds, the held value is unconditionally overwritten. -/
theorem c7_publish_swallows (serialize : AllStats → Option String) (now exp : Nat)
    (pd : StoreMap) (held : String) :
    (serialize (passA now exp pd).2 = none →
      (passAWithPublish serialize now exp pd held).2 = held) ∧
    (∀ j, serialize (passA now exp pd).2 = some j →
      (passAWithPublish serialize now exp pd held).2 = j) := by
  constructor
  · intro h
    simp [passAWithPublish, publishStep, h]
  · intro j h
    simp [passAWithPublish, publishStep, h]

/-- Witness for `c7_publish_swallows`: a failing serializer leaves the old
value in the cell; a succeeding one replaces it. -/
theorem c7_publish_swallows_witness :
    (passAWithPublish (fun _ => Option.none) 0 0 [] "prev").2 = "prev" ∧
    (passAWithPublish (fun _ => Option.some "new") 0 0 [] "prev").2 = "new" :=
  ⟨(c7_publish_swallows (fun _ => Option.none) 0 0 [] "prev").1 rfl,
    (c7_publish_swallows (fun _ => Option.some "new") 0 0 [] "prev").2 "new" rfl⟩

/-- C8: the `pool_actor` loop never terminates itself — it processes the
whole mailbox contents however they are split, answers every
`CalculateStats` exactly once (also on an empty store, where the reply is
the zero-valued default), and only the exhaustion of the mailbox (channel
closed externally) ends the run. -/
theorem c8_worker_persistence (now exp : Nat) (store : List Report) (ms1 ms2 : List PoolCmd) :
    ((poolActorRun now exp store (ms1 ++ ms2)).2 =
      (poolActorRun now exp store ms1).2 ++
        (poolActorRun now exp ((poolActorRun now exp store ms1).1) ms2).2) ∧
    ((poolActorRun now exp store ms1).2.length = (ms1.filter PoolCmd.isCalc).length) ∧
    poolActorStep now exp [] PoolCmd.calcStats = ([], some PoolStats.default) :=
  ⟨congrArg Prod.snd (poolActorRun_append now exp store ms1 ms2),
    poolActorRun_reply_count now exp store ms1, rfl⟩

/-- C9: `GET /stats` always answers 200 with the currently published
snapshot; the published map's keys are in strict lexicographic order
whatever the per-pool iteration order was; and the snapshot of an engine
with no keys serializes to exactly the empty-pools JSON object. -/
theorem c9_get_stats_shape (render : ℚ → String) (cell : String)
    (l : List (String × PoolStats)) :
    ((get_stats cell).1 = 200) ∧
    (((buildAllStats l).map Prod.fst).Sorted (· < ·)) ∧
    (serializeAllStats render emptyAllStats = "\x7b\"pools\":\x7b\x7d\x7d") ∧
    ((get_stats (serializeAllStats render (buildAllStats l))).2 =
      serializeAllStats render (buildAllStats l)) :=
  ⟨rfl, buildAllStats_sorted l, rfl, rfl⟩

/-- C10: every binary seeds the watch cell with the serialized empty
AllStats before spawning the engine, so a read that happens before the
first compute pass returns 200 with the complete empty snapshot, whatever
the number renderer does. -/
theorem c10_initial_snapshot (render : ℚ → String) :
    get_stats (initialCell render) = (200, "\x7b\"pools\":\x7b\x7d\x7d") := rfl
